import Mathlib

/-!
Verification of the pvxs data codec (src/src/dataencode.cpp) and server spine
(src/src/server.cpp) against the repository specification.

Bytes are modelled as Nat values; machine integers are Nat or Int with
explicit reductions modulo powers of two.  The Buffer primitives
(to_wire and from_wire of fixed-width integers, Size counts, strings) live in
the pvaproto.h header, which is not part of the provided sources; they are
modelled from the specification, section 4.1, in big-endian byte order.
Recursive procedures of the source are embedded as fuel-indexed structural
recursions; running out of fuel marks the buffer faulted, and every verified
statement is either fuel-parametric or evaluated at an explicitly sufficient
fuel, so no verified property depends on the fuel artifact.
-/

namespace PvxsProof

/-- Null size sentinel: size_t(-1) on a 64-bit host (spec section 4.1). -/
def NULLSIZE : Nat := 2 ^ 64 - 1

/-- Decode-side byte cursor: remaining bytes plus the sticky good flag of
the source Buffer class. -/
structure IBuf where
  data : List Nat
  ok : Bool
  deriving DecidableEq

/-- Sets the sticky fault flag, as Buffer::fault in the source. -/
def fault (b : IBuf) : IBuf := { b with ok := false }

/-- Reads one byte.  After a fault every primitive is a no-op returning zero,
mirroring the sticky-fault contract of spec section 4.1. -/
def getU8 (b : IBuf) : Nat × IBuf :=
  if b.ok then
    match b.data with
    | [] => (0, fault b)
    | x :: r => (x, ⟨r, true⟩)
  else (0, b)

/-- Reads a big-endian 16-bit integer.  Modelled from the spec: fixed-width
integer primitives are in the missing pvaproto.h header. -/
def getU16 (b : IBuf) : Nat × IBuf :=
  let (hi, b) := getU8 b
  let (lo, b) := getU8 b
  (hi * 256 + lo, b)

/-- Reads a big-endian 32-bit integer (modelled from the spec). -/
def getU32 (b : IBuf) : Nat × IBuf :=
  let (hi, b) := getU16 b
  let (lo, b) := getU16 b
  (hi * 65536 + lo, b)

/-- Reads a big-endian 64-bit integer (modelled from the spec). -/
def getU64 (b : IBuf) : Nat × IBuf :=
  let (hi, b) := getU32 b
  let (lo, b) := getU32 b
  (hi * 4294967296 + lo, b)

/-- Reads a Size count (spec section 4.1): one byte below 254, byte 0xFF for
the size_t(-1) null sentinel, byte 0xFE followed by a 32-bit count
otherwise. -/
def getSize (b : IBuf) : Nat × IBuf :=
  let (x, b) := getU8 b
  if x = 0xff then (NULLSIZE, b)
  else if x = 0xfe then getU32 b
  else (x, b)

/-- Reads n raw bytes, faulting when fewer remain. -/
def getBytes (b : IBuf) (n : Nat) : List Nat × IBuf :=
  if b.ok then
    if n ≤ b.data.length then (b.data.take n, ⟨b.data.drop n, true⟩)
    else ([], fault b)
  else ([], b)

/-- Reads a protocol string: Size then raw bytes (spec section 4.1).
Strings are kept as byte lists throughout the development. -/
def getString (b : IBuf) : List Nat × IBuf :=
  let (n, b) := getSize b
  getBytes b n

/-- Association-list update with the overwrite semantics of operator[] of
std::map: the first binding of the key is replaced, otherwise the pair is
appended.  Lookup results agree with the ordered map of the source. -/
def mapSet {α β : Type} [DecidableEq α] (m : List (α × β)) (k : α) (v : β) :
    List (α × β) :=
  match m with
  | [] => [(k, v)]
  | p :: r => if p.1 = k then (k, v) :: r else p :: mapSet r k v

/-- Association-list lookup, modelling std::map::find. -/
def mapGet? {α β : Type} [DecidableEq α] (m : List (α × β)) (k : α) :
    Option β :=
  match m with
  | [] => none
  | p :: r => if p.1 = k then some p.2 else mapGet? r k

/-- Clears the array bit 0x08 of a type byte: TypeCode::scalarOf.  Modelled
from the spec (section 3.1); the TypeCode definitions live in the missing
pvxs/data.h header.  Numeric codes follow the PVA wire protocol with array
bit 0x08 and deprecated fixed-length bit 0x10 (the latter given explicitly
by the spec). -/
def scalarOf (c : Nat) : Nat := c &&& 0xf7

/-- Stand-in for std::hash of std::string, whose value is
implementation-defined; the concrete mixing function is irrelevant to every
verified property (hashes never steer control flow in the source). -/
def hashStr (s : List Nat) : Nat :=
  s.foldl (fun h c => (h * 131 + c) % 2 ^ 64) 5381

/-- One node of the flattened type tree (spec section 3.2).  The offset
fields populated by FieldDesc_calculate_offset are omitted: that pass is not
part of the provided sources and no claim refers to it. -/
structure FieldDesc where
  code : Nat := 0
  id : List Nat := []
  hash : Nat := 0
  miter : List (List Nat × Nat) := []
  mlookup : List (List Nat × Nat) := []
  num_index : Nat := 0
  deriving DecidableEq

/-- Introspection cache: 16-bit key to cached FieldDesc subtree. -/
abbrev Cache := List (Nat × List FieldDesc)

/-- TypeDeserContext of the source: destination vector plus the
per-connection introspection cache. -/
structure TypeCtxt where
  descs : List FieldDesc
  cache : Cache
  deriving DecidableEq

/-- Replaces node i of the destination vector by a rewritten copy. -/
def modifyAt (ctxt : TypeCtxt) (i : Nat) (g : FieldDesc → FieldDesc) :
    TypeCtxt :=
  { ctxt with descs := ctxt.descs.set i (g (ctxt.descs.getD i {})) }

/-- Sets num_index of node i to the node count of its decoded subtree,
as the final statement of the type-decode branch does. -/
def setNum (ctxt : TypeCtxt) (i : Nat) : TypeCtxt :=
  modifyAt ctxt i (fun fd => { fd with num_index := ctxt.descs.length - i })

/-- Work items of the type decoder: a single field description, or the
member loop of a Struct or Union body (n children remaining, parent index,
parent code, parent depth). -/
inductive TFJob where
  | one (depth : Nat)
  | mems (n : Nat) (index : Nat) (pcode : Nat) (depth : Nat)

/-- Embedding of the type-stream decoder from_wire of
src/src/dataencode.cpp lines 56 to 206, fuel-indexed.  The Bool result is
the early-return flag of the member loop (a child failure returns from the
enclosing call before num_index is assigned).  Every recursive call of the
source passes depth+1 and the source faults above depth 20, so behaviour is
independent of fuel once fuel exceeds the byte count plus 21. -/
def typeFWGo (fuel : Nat) (buf : IBuf) (ctxt : TypeCtxt) (job : TFJob) :
    IBuf × TypeCtxt × Bool :=
  match fuel with
  | 0 => (fault buf, ctxt, true)
  | f + 1 =>
    match job with
    | .one depth =>
      if ¬buf.ok ∨ depth > 20 then (fault buf, ctxt, false)
      else
        let (code, buf) := getU8 buf
        let index := ctxt.descs.length
        if code = 0xff then (buf, ctxt, false)
        else if code = 0xfd then
          -- update cache
          let (key, buf) := getU16 buf
          let (buf, ctxt, _) := typeFWGo f buf ctxt (.one (depth + 1))
          if ¬buf.ok ∨ index = ctxt.descs.length then (fault buf, ctxt, false)
          else
            (buf, { ctxt with
                    cache := mapSet ctxt.cache key (ctxt.descs.drop index) },
             false)
        else if code = 0xfe then
          -- fetch cache
          let (key, buf) := getU16 buf
          let buf := if (mapGet? ctxt.cache key).isNone then fault buf else buf
          if ¬buf.ok ∨ ((mapGet? ctxt.cache key).getD []).isEmpty then
            (fault buf, ctxt, false)
          else
            (buf, { ctxt with
                    descs := ctxt.descs ++ (mapGet? ctxt.cache key).getD [] },
             false)
        else if code ≠ 0xff ∧ code &&& 0x10 ≠ 0 then
          -- fixed length is deprecated
          (fault buf, ctxt, false)
        else
          -- actual field
          let ctxt := { ctxt with
                        descs := ctxt.descs ++ [{ code := code, hash := code }] }
          if code = 0x88 ∨ code = 0x89 then
            -- StructA, UnionA
            let (buf, ctxt, _) := typeFWGo f buf ctxt (.one (depth + 1))
            if ¬buf.ok ∨ ctxt.descs.length = index ∨
               (ctxt.descs.getD (index + 1) {}).code ≠ scalarOf code then
              (fault buf, ctxt, false)
            else (buf, setNum ctxt index, false)
          else if code = 0x80 ∨ code = 0x81 then
            -- Struct, Union
            let (idS, buf) := getString buf
            let ctxt := modifyAt ctxt index (fun fd => { fd with id := idS })
            let (nfld, buf) := getSize buf
            let ctxt := modifyAt ctxt index
              (fun fd => { fd with hash := fd.hash ^^^ hashStr fd.id })
            let (buf, ctxt, ab) := typeFWGo f buf ctxt (.mems nfld index code depth)
            if ab then (buf, ctxt, false)
            else (buf, setNum ctxt index, false)
          else
            -- not handling fixed/bounded; other types are single nodes
            let buf :=
              if scalarOf code ∈
                 [0x00, 0x20, 0x21, 0x22, 0x23, 0x24, 0x25, 0x26, 0x27,
                  0x42, 0x43, 0x60, 0x82] then buf
              else fault buf
            (buf, setNum ctxt index, false)
    | .mems n index pcode depth =>
      match n with
      | 0 => (buf, ctxt, false)
      | n + 1 =>
        let cindex := ctxt.descs.length
        let (nm, buf) := getString buf
        let (buf, ctxt, _) := typeFWGo f buf ctxt (.one (depth + 1))
        if ¬buf.ok ∨ cindex ≥ ctxt.descs.length then (fault buf, ctxt, true)
        else
          let cfld := ctxt.descs.getD cindex {}
          let ctxt := modifyAt ctxt index (fun fd =>
            let fd := { fd with
                        hash := fd.hash ^^^ hashStr nm ^^^ cfld.hash,
                        miter := fd.miter ++ [(nm, cindex - index)],
                        mlookup := mapSet fd.mlookup nm (cindex - index) }
            if pcode = 0x80 ∧ cfld.code = pcode then
              -- copy descendant indices for sub-struct; the source adds the
              -- absolute child index cindex, not the relative cindex - index
              { fd with
                mlookup := cfld.mlookup.foldl
                  (fun m q => mapSet m (nm ++ [0x2e] ++ q.1) (cindex + q.2))
                  fd.mlookup }
            else fd)
          typeFWGo f buf ctxt (.mems n index pcode depth)

/-! Value codec.  The FieldDesc and FieldStorage plumbing (pvxs/data.h and
dataimpl.h: storage-category assignment, Value::Helper::build, the flat
offset tables) is not part of the provided sources; the type and storage of
a Value are therefore modelled from spec sections 3.1 to 3.4 as a recursive
type paired with a recursive storage tree.  The dispatch structure, byte
formats and branch logic below are translated from to_wire_field and
from_wire_field of src/src/dataencode.cpp.  The flat loop of the Struct
case iterates every non-Struct descendant cell in depth-first order, which
on the tree representation is plain recursion over the children (a Struct
child is handled by its own Struct case). -/

/-- Recursive rendering of a FieldDesc tree (spec section 3.2).  Scalars,
scalar arrays, Any and AnyA are carried by their numeric code. -/
inductive TDesc where
  | prim (code : Nat)
  | tstruct (id : List Nat) (members : List (List Nat × TDesc))
  | tunion (id : List Nat) (members : List (List Nat × TDesc))
  | tstructA (elem : TDesc)
  | tunionA (elem : TDesc)

/-- Type byte of a node, as stored in FieldDesc::code. -/
def TDesc.codeOf : TDesc → Nat
  | .prim c => c
  | .tstruct _ _ => 0x80
  | .tunion _ _ => 0x81
  | .tstructA _ => 0x88
  | .tunionA _ => 0x89

/-- Member list of a Struct or Union node (FieldDesc::miter); empty for
every other node, matching the always-present miter vector of the source. -/
def tdMembers : TDesc → List (List Nat × TDesc)
  | .tstruct _ ms => ms
  | .tunion _ ms => ms
  | _ => []

/-- Work items for the structural-equality test on type trees. -/
inductive BeqJob where
  | one (a b : TDesc)
  | many (as bs : List (List Nat × TDesc))

/-- Structural equality of type trees.  The source compares FieldDesc
pointers into one shared array (spec section 4.3.4, identity of the
resolved member description); on the tree model identity is structural
equality. -/
def tdBeqGo (fuel : Nat) (j : BeqJob) : Bool :=
  match fuel with
  | 0 => false
  | f + 1 =>
    match j with
    | .one a b =>
      match a, b with
      | .prim c, .prim d => c == d
      | .tstruct i1 m1, .tstruct i2 m2 => i1 == i2 && tdBeqGo f (.many m1 m2)
      | .tunion i1 m1, .tunion i2 m2 => i1 == i2 && tdBeqGo f (.many m1 m2)
      | .tstructA e1, .tstructA e2 => tdBeqGo f (.one e1 e2)
      | .tunionA e1, .tunionA e2 => tdBeqGo f (.one e1 e2)
      | _, _ => false
    | .many as bs =>
      match as, bs with
      | [], [] => true
      | (n1, d1) :: r1, (n2, d2) :: r2 =>
        n1 == n2 && tdBeqGo f (.one d1 d2) && tdBeqGo f (.many r1 r2)
      | _, _ => false

/-- Structural equality of two type trees at the given fuel. -/
def tdBeq (fuel : Nat) (a b : TDesc) : Bool := tdBeqGo fuel (.one a b)

/-- Storage tree: one cell per node, spec section 3.3.  Struct parents hold
a Null cell plus their children's cells; Union and Any hold an optional
sub-value; the stArr constructors are the storage category Array, carrying
the type-erased payload by its allocation type (stArrVoid is the untyped
empty array of a default-initialised cell, which casts to any element
type). -/
inductive Store where
  | stNull (children : List Store)
  | stInt (v : Int)
  | stUInt (v : Nat)
  | stReal (bits : Nat)
  | stStr (s : List Nat)
  | stArrVoid
  | stArrBool (xs : List Bool)
  | stArrU8 (xs : List Nat)
  | stArrU16 (xs : List Nat)
  | stArrU32 (xs : List Nat)
  | stArrU64 (xs : List Nat)
  | stArrStr (xs : List (List Nat))
  | stArrVal (xs : List (Option (TDesc × Store)))
  | stCompound (v : Option (TDesc × Store))

/-- Models shared_array::castTo to bool elements: the untyped empty array
casts to anything, a mismatched cast throws. -/
def Store.asBools : Store → Option (List Bool)
  | .stArrVoid => some []
  | .stArrBool xs => some xs
  | _ => none

/-- Models castTo to 8-bit elements. -/
def Store.asU8s : Store → Option (List Nat)
  | .stArrVoid => some []
  | .stArrU8 xs => some xs
  | _ => none

/-- Models castTo to 16-bit elements. -/
def Store.asU16s : Store → Option (List Nat)
  | .stArrVoid => some []
  | .stArrU16 xs => some xs
  | _ => none

/-- Models castTo to 32-bit elements. -/
def Store.asU32s : Store → Option (List Nat)
  | .stArrVoid => some []
  | .stArrU32 xs => some xs
  | _ => none

/-- Models castTo to 64-bit elements. -/
def Store.asU64s : Store → Option (List Nat)
  | .stArrVoid => some []
  | .stArrU64 xs => some xs
  | _ => none

/-- Models castTo to string elements. -/
def Store.asStrs : Store → Option (List (List Nat))
  | .stArrVoid => some []
  | .stArrStr xs => some xs
  | _ => none

/-- Models castTo to Value elements (compound arrays). -/
def Store.asVals : Store → Option (List (Option (TDesc × Store)))
  | .stArrVoid => some []
  | .stArrVal xs => some xs
  | _ => none

/-- Default-initialised storage cell tree for a type, as allocated by
Value::Helper::build.  Modelled from the spec: the storage-category table of
section 3.3 (Bool lives in UInteger; signed integers in Integer; arrays get
the empty untyped array; Union and Any start null). -/
def defaultStore (fuel : Nat) (d : TDesc) : Store :=
  match fuel with
  | 0 => .stNull []
  | f + 1 =>
    match d with
    | .prim c =>
      if c = 0x00 then .stUInt 0
      else if c = 0x20 ∨ c = 0x21 ∨ c = 0x22 ∨ c = 0x23 then .stInt 0
      else if c = 0x24 ∨ c = 0x25 ∨ c = 0x26 ∨ c = 0x27 then .stUInt 0
      else if c = 0x42 ∨ c = 0x43 then .stReal 0
      else if c = 0x60 then .stStr []
      else if c = 0x82 then .stCompound none
      else if c &&& 0x08 ≠ 0 then .stArrVoid
      else .stNull []
    | .tstruct _ ms => .stNull (ms.map (fun p => defaultStore f p.2))
    | .tunion _ _ => .stCompound none
    | .tstructA _ => .stArrVoid
    | .tunionA _ => .stArrVoid

/-- Encode-side byte sink with the sticky good flag; fatal marks the paths
that abort the process in the source (assertion failure or a thrown
logic_error), distinguished from a protocol fault. -/
structure OBuf where
  out : List Nat
  ok : Bool
  fatal : Bool
  deriving DecidableEq

/-- Fresh encode buffer. -/
def OBuf.init : OBuf := ⟨[], true, false⟩

/-- Marks the assertion-failure and thrown-exception paths. -/
def obFatal (b : OBuf) : OBuf := { b with ok := false, fatal := true }

/-- Encode-side fault (also the fuel-exhaustion artifact marker). -/
def obFault (b : OBuf) : OBuf := { b with ok := false }

/-- Appends raw bytes; a no-op after a fault, as in Buffer. -/
def putRaw (b : OBuf) (xs : List Nat) : OBuf :=
  if b.ok then { b with out := b.out ++ xs } else b

/-- Big-endian byte lists of fixed-width integers (modelled from the spec;
the primitives live in the missing pvaproto.h). -/
def u16be (v : Nat) : List Nat := [v / 256 % 256, v % 256]

/-- Big-endian 32-bit bytes. -/
def u32be (v : Nat) : List Nat :=
  [v / 16777216 % 256, v / 65536 % 256, v / 256 % 256, v % 256]

/-- Big-endian 64-bit bytes. -/
def u64be (v : Nat) : List Nat := u32be (v / 4294967296) ++ u32be v

/-- Size encoding of spec section 4.1 (the 64-bit extension for counts of
2^32 and above is not modelled; no verified property involves such a
count). -/
def sizeBytes (n : Nat) : List Nat :=
  if n = NULLSIZE then [0xff]
  else if n < 254 then [n]
  else 0xfe :: u32be n

/-- Writes one byte. -/
def putU8 (b : OBuf) (v : Nat) : OBuf := putRaw b [v % 256]

/-- Writes a 16-bit big-endian integer. -/
def putU16 (b : OBuf) (v : Nat) : OBuf := putRaw b (u16be v)

/-- Writes a 32-bit big-endian integer. -/
def putU32 (b : OBuf) (v : Nat) : OBuf := putRaw b (u32be v)

/-- Writes a 64-bit big-endian integer. -/
def putU64 (b : OBuf) (v : Nat) : OBuf := putRaw b (u64be v)

/-- Writes a Size count. -/
def putSize (b : OBuf) (n : Nat) : OBuf := putRaw b (sizeBytes n)

/-- Writes a protocol string. -/
def putString (b : OBuf) (s : List Nat) : OBuf :=
  putRaw b (sizeBytes s.length ++ s)

/-- Two's-complement reading of a w-bit pattern, the value of a signed
machine integer holding that pattern. -/
def toSigned (v w : Nat) : Int :=
  if v < 2 ^ (w - 1) then (v : Int) else (v : Int) - 2 ^ w

/-- Conversion of a signed value into a uint64_t cell (reduction modulo
2^64, as the C integral conversion). -/
def intToU64 (i : Int) : Nat := (i % (2 ^ 64 : Int)).toNat

/-- Low w bits of a signed value: the byte pattern written for intN_t(v). -/
def intBits (i : Int) (w : Nat) : Nat := (i % ((2 : Int) ^ w)).toNat

/-- Stand-in for the double-to-float narrowing of the Float32 encode branch.
Floating-point rounding is outside the embedding; no verified property
depends on this function. -/
def f32ofF64 (bits : Nat) : Nat := bits % 2 ^ 32

/-- Stand-in for the float-to-double widening of the Float32 decode branch;
no verified property depends on it. -/
def f64ofF32 (bits : Nat) : Nat := bits % 2 ^ 32

/-- Work items of the type encoder to_wire over FieldDesc. -/
inductive TTJob where
  | one (d : TDesc)
  | mems (ms : List (List Nat × TDesc))

/-- Embedding of the type encoder to_wire of src/src/dataencode.cpp lines
30 to 54 on the tree rendering: emit the code byte, then for Struct and
Union the id, the member count and each named member recursively, for the
compound arrays the single element description, and nothing further for
scalars, scalar arrays and Any. -/
def typeTW (fuel : Nat) (buf : OBuf) (j : TTJob) : OBuf :=
  match fuel with
  | 0 => obFault buf
  | f + 1 =>
    match j with
    | .one d =>
      let buf := putU8 buf d.codeOf
      match d with
      | .tstructA e => typeTW f buf (.one e)
      | .tunionA e => typeTW f buf (.one e)
      | .tstruct id ms => typeTW f (putSize (putString buf id) ms.length) (.mems ms)
      | .tunion id ms => typeTW f (putSize (putString buf id) ms.length) (.mems ms)
      | .prim _ => buf
    | .mems ms =>
      match ms with
      | [] => buf
      | (nm, d) :: ms2 => typeTW f (typeTW f (putString buf nm) (.one d)) (.mems ms2)

/-- Work items of the flat-to-tree interpretation of a decoded FieldDesc
array. -/
inductive TreeJob where
  | one (descs : List FieldDesc)
  | mems (descs : List FieldDesc) (miter : List (List Nat × Nat))

/-- Results of the flat-to-tree interpretation. -/
inductive TRes where
  | tone (d : TDesc)
  | tmany (ms : List (List Nat × TDesc))

/-- Interprets a decoded flat FieldDesc array as a type tree.  Modelled
from the spec: this is the reading of the array performed by
Value::Helper::build (dataimpl, not in the provided sources), following the
relative member indices of section 3.2. -/
def treeOfGo (fuel : Nat) (j : TreeJob) : Option TRes :=
  match fuel with
  | 0 => none
  | f + 1 =>
    match j with
    | .one descs =>
      match descs with
      | [] => none
      | fd :: _ =>
        if fd.code = 0x80 ∨ fd.code = 0x81 then
          match treeOfGo f (.mems descs fd.miter) with
          | some (.tmany ms) =>
            some (.tone (if fd.code = 0x80 then .tstruct fd.id ms else .tunion fd.id ms))
          | _ => none
        else if fd.code = 0x88 ∨ fd.code = 0x89 then
          match treeOfGo f (.one (descs.drop 1)) with
          | some (.tone e) =>
            some (.tone (if fd.code = 0x88 then .tstructA e else .tunionA e))
          | _ => none
        else some (.tone (.prim fd.code))
    | .mems descs miter =>
      match miter with
      | [] => some (.tmany [])
      | (nm, rel) :: rest =>
        match treeOfGo f (.one (descs.drop rel)) with
        | some (.tone d) =>
          match treeOfGo f (.mems descs rest) with
          | some (.tmany ms) => some (.tmany ((nm, d) :: ms))
          | _ => none
        | _ => none

/-- Flat-to-tree interpretation of a decoded type stream. -/
def treeOf (fuel : Nat) (descs : List FieldDesc) : Option TDesc :=
  match treeOfGo fuel (.one descs) with
  | some (.tone d) => some d
  | _ => none

/-- Byte list of a bool array element sequence, one byte per element. -/
def outBools (xs : List Bool) : List Nat := xs.map (fun x => if x then 1 else 0)

/-- Work items of the value encoder to_wire_field. -/
inductive TWJob where
  | field (desc : TDesc) (store : Store)
  | children (ms : List (List Nat × TDesc)) (sts : List Store)
  | elemsStructA (edesc : TDesc) (xs : List (Option (TDesc × Store)))
  | elemsUnionA (xs : List (Option (TDesc × Store)))
  | elemsAnyA (xs : List (Option (TDesc × Store)))

/-- Embedding of the value encoder to_wire_field of src/src/dataencode.cpp
lines 234 to 407: dispatch on the storage category, then on the numeric
type code.  A combination that falls out of both switches reaches the
trailing assertion failure plus fault, modelled by obFatal; the thrown
logic_error of a Union holding a non-member value is likewise obFatal.
Note that the Array-category switch of the source matches the scalar codes
Int8 through Float64 rather than their array codes 0x28 to 0x2f, 0x4a and
0x4b, so those array codes reach the default branch. -/
def twGo (fuel : Nat) (buf : OBuf) (job : TWJob) : OBuf :=
  match fuel with
  | 0 => obFault buf
  | f + 1 =>
    match job with
    | .field desc store =>
      match store with
      | .stNull children =>
        match desc with
        | .tstruct _ ms => twGo f buf (.children ms children)
        | _ => obFatal buf
      | .stReal bits =>
        match desc with
        | .prim 0x42 => putU32 buf (f32ofF64 bits)
        | .prim 0x43 => putU64 buf bits
        | _ => obFatal buf
      | .stInt v =>
        match desc with
        | .prim 0x20 => putU8 buf (intBits v 8)
        | .prim 0x21 => putU16 buf (intBits v 16)
        | .prim 0x22 => putU32 buf (intBits v 32)
        | .prim 0x23 => putU64 buf (intBits v 64)
        | _ => obFatal buf
      | .stUInt v =>
        match desc with
        | .prim 0x00 => putU8 buf (if v = 0 then 0 else 1)
        | .prim 0x24 => putU8 buf v
        | .prim 0x25 => putU16 buf v
        | .prim 0x26 => putU32 buf v
        | .prim 0x27 => putU64 buf v
        | _ => obFatal buf
      | .stStr s =>
        match desc with
        | .prim 0x60 => putString buf s
        | _ => obFatal buf
      | .stCompound ov =>
        match desc with
        | .tunion _ ms =>
          match ov with
          | none => putSize buf NULLSIZE
          | some (d, st) =>
            match ms.findIdx? (fun p => tdBeq f p.2 d) with
            | some i => twGo f (putSize buf i) (.field d st)
            | none => obFatal buf
        | .prim 0x82 =>
          match ov with
          | none => putU8 buf 0xff
          | some (d, st) => twGo f (typeTW f buf (.one d)) (.field d st)
        | _ => obFatal buf
      | st =>
        -- storage category Array
        match desc with
        | .tstructA edesc =>
          match st.asVals with
          | some xs => twGo f (putSize buf xs.length) (.elemsStructA edesc xs)
          | none => obFatal buf
        | .tunionA _ =>
          match st.asVals with
          | some xs => twGo f (putSize buf xs.length) (.elemsUnionA xs)
          | none => obFatal buf
        | .prim c =>
          if c = 0x08 then
            match st.asBools with
            | some xs => putRaw (putSize buf xs.length) (outBools xs)
            | none => obFatal buf
          else if c = 0x20 ∨ c = 0x24 then
            match st.asU8s with
            | some xs => putRaw (putSize buf xs.length) (xs.map (fun v => v % 256))
            | none => obFatal buf
          else if c = 0x21 ∨ c = 0x25 then
            match st.asU16s with
            | some xs => putRaw (putSize buf xs.length) (xs.map u16be).flatten
            | none => obFatal buf
          else if c = 0x22 ∨ c = 0x26 ∨ c = 0x42 then
            match st.asU32s with
            | some xs => putRaw (putSize buf xs.length) (xs.map u32be).flatten
            | none => obFatal buf
          else if c = 0x23 ∨ c = 0x27 ∨ c = 0x43 then
            match st.asU64s with
            | some xs => putRaw (putSize buf xs.length) (xs.map u64be).flatten
            | none => obFatal buf
          else if c = 0x68 then
            match st.asStrs with
            | some xs =>
              putRaw (putSize buf xs.length) (xs.map (fun s => sizeBytes s.length ++ s)).flatten
            | none => obFatal buf
          else if c = 0x8a then
            match st.asVals with
            | some xs => twGo f (putSize buf xs.length) (.elemsAnyA xs)
            | none => obFatal buf
          else obFatal buf
        | _ => obFatal buf
    | .children ms sts =>
      match ms, sts with
      | (_, d) :: ms2, st :: sts2 => twGo f (twGo f buf (.field d st)) (.children ms2 sts2)
      | _, _ => buf
    | .elemsStructA edesc xs =>
      match xs with
      | [] => buf
      | none :: xs2 => twGo f (putU8 buf 0) (.elemsStructA edesc xs2)
      | some (d, st) :: xs2 =>
        let buf := putU8 buf 1
        let buf := if tdBeq f d edesc then buf else obFatal buf
        twGo f (twGo f buf (.field d st)) (.elemsStructA edesc xs2)
    | .elemsUnionA xs =>
      match xs with
      | [] => buf
      | none :: xs2 => twGo f (putU8 buf 0) (.elemsUnionA xs2)
      | some (d, st) :: xs2 =>
        twGo f (twGo f (putU8 buf 1) (.field d st)) (.elemsUnionA xs2)
    | .elemsAnyA xs =>
      match xs with
      | [] => buf
      | none :: xs2 => twGo f (putU8 buf 0) (.elemsAnyA xs2)
      | some (d, st) :: xs2 =>
        twGo f (twGo f (typeTW f (putU8 buf 1) (.one d)) (.field d st)) (.elemsAnyA xs2)

/-- Encode of a whole non-null value: to_wire_full of the source. -/
def toWireFull (fuel : Nat) (buf : OBuf) (desc : TDesc) (store : Store) : OBuf :=
  twGo fuel buf (.field desc store)

/-- Results of the value decoder work items. -/
inductive FWRes where
  | rStore (s : Store)
  | rStores (ss : List Store)
  | rElems (es : List (Option (TDesc × Store))) (aborted : Bool)
  | rUnit

/-- Store result with a fallback (never taken for the field work item). -/
def FWRes.store (r : FWRes) (fb : Store) : Store :=
  match r with
  | .rStore s => s
  | _ => fb

/-- Child-store-list result with a fallback. -/
def FWRes.stores (r : FWRes) (fb : List Store) : List Store :=
  match r with
  | .rStores s => s
  | _ => fb

/-- Element-list result plus the early-return flag. -/
def FWRes.elems : FWRes → List (Option (TDesc × Store)) × Bool
  | .rElems es ab => (es, ab)
  | _ => ([], false)

/-- Work items of the value decoder from_wire_field. -/
inductive FWJob where
  | field (desc : TDesc) (store : Store)
  | children (ms : List (List Nat × TDesc)) (sts : List Store)
  | elemsStructA (edesc : TDesc) (n : Nat) (acc : List (Option (TDesc × Store)))
  | elemsUnionA (edesc : TDesc) (n : Nat) (acc : List (Option (TDesc × Store)))
  | elemsAnyA (n : Nat) (acc : List (Option (TDesc × Store)))
  | dropFixed (n : Nat) (w : Nat)
  | dropStrings (n : Nat)

/-- Embedding of the value decoder from_wire_field of src/src/dataencode.cpp
lines 446 to 668 together with the anonymous scalar-array from_wire template
of lines 219 to 230.  Notable translated behaviours: the scalar-array
template reads a Size and the elements but never assigns the destination
cell, so the prior cell value survives (the dropFixed and dropStrings items);
the UInteger branch reads UInt8, UInt16 and UInt32 through the signed
from_wire_as instantiations, sign-extending into the cell; array-element
presence bytes are compared against zero only; a UnionA element selector
equal to the null sentinel yields a null element exactly like presence zero;
an out-of-range UnionA selector faults and returns from the whole call
before the element array is assigned; the Array-category switch matches the
scalar integer and float codes, so the corresponding array codes fall to the
trailing fault. -/
def fwGo (fuel : Nat) (buf : IBuf) (cache : Cache) (job : FWJob) :
    IBuf × Cache × FWRes :=
  match fuel with
  | 0 => (fault buf, cache, .rUnit)
  | f + 1 =>
    match job with
    | .field desc store =>
      match store with
      | .stNull children =>
        match desc with
        | .tstruct _ ms =>
          let (buf, cache, r) := fwGo f buf cache (.children ms children)
          (buf, cache, .rStore (.stNull (r.stores children)))
        | _ => (fault buf, cache, .rStore store)
      | .stReal _ =>
        match desc with
        | .prim 0x42 =>
          let (v, buf) := getU32 buf
          (buf, cache, .rStore (.stReal (f64ofF32 v)))
        | .prim 0x43 =>
          let (v, buf) := getU64 buf
          (buf, cache, .rStore (.stReal v))
        | _ => (fault buf, cache, .rStore store)
      | .stInt _ =>
        match desc with
        | .prim 0x20 =>
          let (v, buf) := getU8 buf
          (buf, cache, .rStore (.stInt (toSigned v 8)))
        | .prim 0x21 =>
          let (v, buf) := getU16 buf
          (buf, cache, .rStore (.stInt (toSigned v 16)))
        | .prim 0x22 =>
          let (v, buf) := getU32 buf
          (buf, cache, .rStore (.stInt (toSigned v 32)))
        | .prim 0x23 =>
          let (v, buf) := getU64 buf
          (buf, cache, .rStore (.stInt (toSigned v 64)))
        | _ => (fault buf, cache, .rStore store)
      | .stUInt _ =>
        match desc with
        | .prim 0x00 =>
          let (v, buf) := getU8 buf
          (buf, cache, .rStore (.stUInt (if v = 0 then 0 else 1)))
        | .prim 0x24 =>
          let (v, buf) := getU8 buf
          (buf, cache, .rStore (.stUInt (intToU64 (toSigned v 8))))
        | .prim 0x25 =>
          let (v, buf) := getU16 buf
          (buf, cache, .rStore (.stUInt (intToU64 (toSigned v 16))))
        | .prim 0x26 =>
          let (v, buf) := getU32 buf
          (buf, cache, .rStore (.stUInt (intToU64 (toSigned v 32))))
        | .prim 0x27 =>
          let (v, buf) := getU64 buf
          (buf, cache, .rStore (.stUInt (intToU64 (toSigned v 64))))
        | _ => (fault buf, cache, .rStore store)
      | .stStr _ =>
        match desc with
        | .prim 0x60 =>
          let (s, buf) := getString buf
          (buf, cache, .rStore (.stStr s))
        | _ => (fault buf, cache, .rStore store)
      | .stCompound _ =>
        match desc with
        | .tunion _ ms =>
          let (sel, buf) := getSize buf
          if sel = NULLSIZE then (buf, cache, .rStore (.stCompound none))
          else
            match ms.get? sel with
            | some p =>
              let d0 := defaultStore f p.2
              let (buf, cache, r) := fwGo f buf cache (.field p.2 d0)
              (buf, cache, .rStore (.stCompound (some (p.2, r.store d0))))
            | none => (fault buf, cache, .rStore store)
        | .prim 0x82 =>
          let (buf2, tctxt, _) := typeFWGo f buf ⟨[], cache⟩ (.one 0)
          if ¬buf2.ok then (buf2, tctxt.cache, .rStore store)
          else if tctxt.descs.isEmpty then
            (buf2, tctxt.cache, .rStore (.stCompound none))
          else
            match treeOf f tctxt.descs with
            | some td =>
              let d0 := defaultStore f td
              let (buf3, cache3, r) := fwGo f buf2 tctxt.cache (.field td d0)
              (buf3, cache3, .rStore (.stCompound (some (td, r.store d0))))
            | none => (fault buf2, tctxt.cache, .rStore store)
        | _ => (fault buf, cache, .rStore store)
      | st =>
        -- storage category Array
        match desc with
        | .tstructA edesc =>
          let (n, buf) := getSize buf
          let (buf, cache, r) := fwGo f buf cache (.elemsStructA edesc n [])
          (buf, cache, .rStore (.stArrVal r.elems.1))
        | .tunionA edesc =>
          let (n, buf) := getSize buf
          let (buf, cache, r) := fwGo f buf cache (.elemsUnionA edesc n [])
          if r.elems.2 then (buf, cache, .rStore st)
          else (buf, cache, .rStore (.stArrVal r.elems.1))
        | .prim c =>
          if c = 0x08 then
            let (n, buf) := getSize buf
            let (buf, cache, _) := fwGo f buf cache (.dropFixed n 1)
            (buf, cache, .rStore st)
          else if c = 0x20 ∨ c = 0x24 then
            let (n, buf) := getSize buf
            let (buf, cache, _) := fwGo f buf cache (.dropFixed n 1)
            (buf, cache, .rStore st)
          else if c = 0x21 ∨ c = 0x25 then
            let (n, buf) := getSize buf
            let (buf, cache, _) := fwGo f buf cache (.dropFixed n 2)
            (buf, cache, .rStore st)
          else if c = 0x22 ∨ c = 0x26 ∨ c = 0x42 then
            let (n, buf) := getSize buf
            let (buf, cache, _) := fwGo f buf cache (.dropFixed n 4)
            (buf, cache, .rStore st)
          else if c = 0x23 ∨ c = 0x27 ∨ c = 0x43 then
            let (n, buf) := getSize buf
            let (buf, cache, _) := fwGo f buf cache (.dropFixed n 8)
            (buf, cache, .rStore st)
          else if c = 0x68 then
            let (n, buf) := getSize buf
            let (buf, cache, _) := fwGo f buf cache (.dropStrings n)
            (buf, cache, .rStore st)
          else if c = 0x8a then
            let (n, buf) := getSize buf
            let (buf, cache, r) := fwGo f buf cache (.elemsAnyA n [])
            if r.elems.2 then (buf, cache, .rStore st)
            else (buf, cache, .rStore (.stArrVal r.elems.1))
          else (fault buf, cache, .rStore st)
        | _ => (fault buf, cache, .rStore st)
    | .children ms sts =>
      match ms, sts with
      | (_, d) :: ms2, st :: sts2 =>
        let (buf, cache, r) := fwGo f buf cache (.field d st)
        let (buf, cache, r2) := fwGo f buf cache (.children ms2 sts2)
        (buf, cache, .rStores (r.store st :: r2.stores sts2))
      | _, _ => (buf, cache, .rStores [])
    | .elemsStructA edesc n acc =>
      match n with
      | 0 => (buf, cache, .rElems acc false)
      | n + 1 =>
        let (p, buf) := getU8 buf
        if p = 0 then fwGo f buf cache (.elemsStructA edesc n (acc ++ [none]))
        else
          let d0 := defaultStore f edesc
          let (buf, cache, r) := fwGo f buf cache (.field edesc d0)
          fwGo f buf cache (.elemsStructA edesc n (acc ++ [some (edesc, r.store d0)]))
    | .elemsUnionA edesc n acc =>
      match n with
      | 0 => (buf, cache, .rElems acc false)
      | n + 1 =>
        let (p, buf) := getU8 buf
        if p = 0 then fwGo f buf cache (.elemsUnionA edesc n (acc ++ [none]))
        else
          let (sel, buf) := getSize buf
          if sel = NULLSIZE then
            fwGo f buf cache (.elemsUnionA edesc n (acc ++ [none]))
          else
            match (tdMembers edesc).get? sel with
            | some q =>
              let d0 := defaultStore f q.2
              let (buf, cache, r) := fwGo f buf cache (.field q.2 d0)
              fwGo f buf cache (.elemsUnionA edesc n (acc ++ [some (q.2, r.store d0)]))
            | none => (fault buf, cache, .rElems acc true)
    | .elemsAnyA n acc =>
      match n with
      | 0 => (buf, cache, .rElems acc false)
      | n + 1 =>
        let (p, buf) := getU8 buf
        if p = 0 then fwGo f buf cache (.elemsAnyA n (acc ++ [none]))
        else
          let (buf2, tctxt, _) := typeFWGo f buf ⟨[], cache⟩ (.one 0)
          if ¬buf2.ok then (buf2, tctxt.cache, .rElems acc true)
          else if tctxt.descs.isEmpty then
            fwGo f buf2 tctxt.cache (.elemsAnyA n (acc ++ [none]))
          else
            match treeOf f tctxt.descs with
            | some td =>
              let d0 := defaultStore f td
              let (buf3, cache3, r) := fwGo f buf2 tctxt.cache (.field td d0)
              fwGo f buf3 cache3 (.elemsAnyA n (acc ++ [some (td, r.store d0)]))
            | none => (fault buf2, tctxt.cache, .rElems acc true)
    | .dropFixed n w =>
      match n with
      | 0 => (buf, cache, .rUnit)
      | n + 1 =>
        let (_, buf) := getBytes buf w
        fwGo f buf cache (.dropFixed n w)
    | .dropStrings n =>
      match n with
      | 0 => (buf, cache, .rUnit)
      | n + 1 =>
        let (_, buf) := getString buf
        fwGo f buf cache (.dropStrings n)

/-- Decode of a whole non-null value: from_wire_full of the source. -/
def fromWireFull (fuel : Nat) (buf : IBuf) (cache : Cache) (desc : TDesc)
    (store : Store) : IBuf × Cache × FWRes :=
  fwGo fuel buf cache (.field desc store)

/-! Server spine (src/src/server.cpp).  Message headers, the socket-address
encoding and the command and flag byte values live in the missing
pvaproto.h; they are modelled from spec section 6.1 and the PVA wire
protocol, and none of their concrete values steers a verified property
except the 0xCA magic byte, which the spec states. -/

/-- Magic byte of every message header (spec section 6.1). -/
def pvaMagic : Nat := 0xca

/-- Protocol version byte.  Modelled from the spec, which leaves the value
to the missing pvaproto.h; no verified property depends on it. -/
def pvaVersion : Nat := 2

/-- Server bit of the header flags byte (spec section 6.1). -/
def pvaFlagsServer : Nat := 0x40

/-- Command byte of a search response (value from the PVA protocol). -/
def cmdSearchResponse : Nat := 0x04

/-- Command byte of a beacon (value from the PVA protocol). -/
def cmdBeacon : Nat := 0x00

/-- Eight-byte message header: magic, version, flags, command, 32-bit body
length (spec section 6.1). -/
def hdrBytes (cmd flags blen : Nat) : List Nat :=
  [pvaMagic, pvaVersion, flags, cmd] ++ u32be blen

/-- Wire form of SockAddr::any(AF_INET): the wildcard 0.0.0.0 as a 16-byte
IPv4-mapped address (modelled from the spec; the encoder lives in the
missing pvaproto.h). -/
def sockAddrAny16 : List Nat :=
  [0, 0, 0, 0, 0, 0, 0, 0, 0, 0, 0xff, 0xff, 0, 0, 0, 0]

/-- Bytes of the transport tag string. -/
def tcpBytes : List Nat := [0x74, 0x63, 0x70]

/-- Claim counting loop of onSearch: a uint16_t counter incremented once
per claimed name. -/
def nreply16 (claims : List Bool) : Nat :=
  claims.foldl (fun a c => if c then (a + 1) % 65536 else a) 0

/-- Reply-id emission loop of onSearch: one uint32 per claimed name, in
original name order. -/
def emitIds : List (Nat × List Nat) → List Bool → List Nat
  | n :: ns, c :: cs => (if c then u32be (n.1 % 2 ^ 32) else []) ++ emitIds ns cs
  | _, _ => []

/-- Embedding of Server::Pvt::onSearch of src/src/server.cpp lines 542 to
604, from the point where the per-name claim flags have been computed (the
Source iteration itself calls external Source::onSearch code and is
represented by the claims argument).  Returns the reply datagram, or none
when no reply is produced.  The source builds the body after an eight-byte
skip in the searchReply vector and then patches the full header over the
first eight bytes of the same vector, so the datagram is the header
followed by the body. -/
def onSearchReply (guid : List Nat) (tcp : Nat) (searchID : Nat)
    (mustReply : Bool) (names : List (Nat × List Nat)) (claims : List Bool) :
    Option (List Nat) :=
  let nreply := nreply16 claims
  if nreply = 0 ∧ mustReply = false then none
  else
    let body := guid ++ u32be (searchID % 2 ^ 32) ++ sockAddrAny16 ++
      u16be (tcp % 65536) ++ (sizeBytes tcpBytes.length ++ tcpBytes) ++
      [if nreply = 0 then 0 else 1] ++ u16be nreply ++ emitIds names claims
    some (hdrBytes cmdSearchResponse pvaFlagsServer ((8 + body.length) - 8) ++ body)

/-- Overwrites bytes of a vector starting at a given position. -/
def setAt (v : List Nat) (pos : Nat) (xs : List Nat) : List Nat :=
  match xs with
  | [] => v
  | x :: r => setAt (v.set pos x) (pos + 1) r

/-- Embedding of Server::Pvt::doBeacons of src/src/server.cpp lines 606 to
646.  The body is written into the beaconMsg vector after an eight-byte
skip (with a further four skipped reserved bytes after the GUID), but the
source computes pktlen as the write pointer minus the base of the
searchReply vector and patches the header into searchReply, not beaconMsg;
the datagram handed to sendto is the first pktlen bytes of beaconMsg.  The
two vector base addresses enter as parameters; the first component of the
result is the sent datagram (none when the computed length is not positive)
and the second is the searchReply vector after the header patch. -/
def doBeacons (beaconPrior searchPrior : List Nat) (beaconBase searchBase : Nat)
    (guid : List Nat) (tcp : Nat) : Option (List Nat) × List Nat :=
  let p := 8
  let v := setAt beaconPrior p guid
  let p := p + guid.length
  let p := p + 4
  let v := setAt v p sockAddrAny16
  let p := p + 16
  let v := setAt v p (u16be (tcp % 65536))
  let p := p + 2
  let v := setAt v p (sizeBytes tcpBytes.length ++ tcpBytes)
  let p := p + 4
  let v := setAt v p [0xff]
  let p := p + 1
  let save : Int := (beaconBase : Int) + p
  let pktlen : Int := save - (searchBase : Int)
  let blen : Nat := ((pktlen - 8) % ((2 : Int) ^ 32)).toNat
  let sr := setAt searchPrior 0 (hdrBytes cmdBeacon pvaFlagsServer blen)
  (if 0 < pktlen then some (v.take pktlen.toNat) else none, sr)

/-- Whitespace class of the ECMAScript regex used by split_addr_into. -/
def isWS (c : Nat) : Bool := c = 32 ∨ c = 9 ∨ c = 10 ∨ c = 11 ∨ c = 12 ∨ c = 13

/-- Full-match decomposition of a C string against the regex of
split_addr_into, which captures the first whitespace-delimited token and
the remainder of the line.  The trailing capture cannot match a newline, so
a remainder containing one makes the whole match fail and the loop exit. -/
def tokenSplit (s : List Nat) : Option (List Nat × List Nat) :=
  let r := s.dropWhile isWS
  match r with
  | [] => none
  | _ =>
    let tok := r.takeWhile (fun c => ¬isWS c)
    let rest := r.dropWhile (fun c => ¬isWS c)
    if rest.contains 10 then none else some (tok, rest)

/-- Embedding of the while loop of split_addr_into, src/src/server.cpp
lines 46 to 62, fuel-indexed with none marking a run that has not
terminated within the fuel.  The validity test models aToIPAddr (an
external OS wrapper) and canon models the dotted re-rendering of
ipAddrToDottedIP.  On an invalid entry the source logs and continues
without advancing the input pointer. -/
def splitRun (valid : List Nat → Bool) (canon : List Nat → List Nat)
    (fuel : Nat) (inp : List Nat) (out : List (List Nat)) :
    Option (List (List Nat)) :=
  match fuel with
  | 0 => none
  | f + 1 =>
    if inp = [] then some out
    else
      match tokenSplit inp with
      | none => some out
      | some (tok, rest) =>
        if valid tok then splitRun valid canon f rest (out ++ [canon tok])
        else splitRun valid canon f inp out

/-- Divergence of the split loop: no amount of fuel completes it. -/
def splitDiverges (valid : List Nat → Bool) (canon : List Nat → List Nat)
    (inp : List Nat) (out : List (List Nat)) : Prop :=
  ∀ fuel, splitRun valid canon fuel inp out = none

/-- Server configuration fields touched by Config::from_env.  The
default-constructed Config of the source lives in the missing server.h
header, so from_env is parametric in the starting configuration. -/
structure Config where
  interfaces : List (List Nat)
  beaconDestinations : List (List Nat)
  auto_beacon : Bool
  tcp_port : Nat
  udp_port : Nat
  deriving DecidableEq

/-- Recognised environment variables (spec section 6.2), one optional value
per name. -/
structure EnvMap where
  pvasIntf : Option (List Nat) := none
  pvasBeacon : Option (List Nat) := none
  pvaAddr : Option (List Nat) := none
  pvasAutoBeacon : Option (List Nat) := none
  pvaAutoAddr : Option (List Nat) := none
  pvasServerPort : Option (List Nat) := none
  pvaServerPort : Option (List Nat) := none
  pvasBcastPort : Option (List Nat) := none
  pvaBcastPort : Option (List Nat) := none

/-- First-present-wins selection of pickenv. -/
def pickEnv (a b : Option (List Nat)) : Option (List Nat) :=
  match a with
  | some v => some v
  | none => b

/-- ASCII lower-casing for the case-insensitive YES and NO comparison of
epicsStrCaseCmp. -/
def toLowerB (c : Nat) : Nat := if 65 ≤ c ∧ c ≤ 90 then c + 32 else c

/-- Case-insensitive byte-string equality. -/
def eqNoCase (a b : List Nat) : Bool := a.map toLowerB == b.map toLowerB

/-- Model of lexical_cast to unsigned short: a nonempty all-digit string
within the 16-bit range parses, anything else throws (returns none here),
which the source catches and logs, keeping the prior value. -/
def parseU16 (s : List Nat) : Option Nat :=
  if s ≠ [] ∧ s.all (fun c => 48 ≤ c ∧ c ≤ 57) then
    let v := s.foldl (fun a c => a * 10 + (c - 48)) 0
    if v < 65536 then some v else none
  else none

/-- Embedding of Config::from_env, src/src/server.cpp lines 78 to 120,
threading the divergence marker of the split loop; none means from_env
never returns for this environment. -/
def fromEnv (fuel : Nat) (cfg0 : Config) (e : EnvMap)
    (valid : List Nat → Bool) (canon : List Nat → List Nat) : Option Config := do
  let c := { cfg0 with udp_port := 5076 }
  let c ← match e.pvasIntf with
    | some v => do
      let xs ← splitRun valid canon fuel v c.interfaces
      pure { c with interfaces := xs }
    | none => pure c
  let c ← match pickEnv e.pvasBeacon e.pvaAddr with
    | some v => do
      let xs ← splitRun valid canon fuel v c.beaconDestinations
      pure { c with beaconDestinations := xs }
    | none => pure c
  let c := match pickEnv e.pvasAutoBeacon e.pvaAutoAddr with
    | some v =>
      if eqNoCase v [0x59, 0x45, 0x53] then { c with auto_beacon := true }
      else if eqNoCase v [0x4e, 0x4f] then { c with auto_beacon := false }
      else c
    | none => c
  let c := match pickEnv e.pvasServerPort e.pvaServerPort with
    | some v =>
      match parseU16 v with
      | some port => { c with tcp_port := port }
      | none => c
    | none => c
  let c := match pickEnv e.pvasBcastPort e.pvaBcastPort with
    | some v =>
      match parseU16 v with
      | some port => { c with udp_port := port }
      | none => c
    | none => c
  pure c

/-- Divergence of from_env under a fixed environment. -/
def fromEnvDiverges (cfg0 : Config) (e : EnvMap) (valid : List Nat → Bool)
    (canon : List Nat → List Nat) : Prop :=
  ∀ fuel, fromEnv fuel cfg0 e valid canon = none

/-- Registry key of the Source map: order then PV name (spec section
4.4.2). -/
abbrev SrcKey := Int × List Nat

/-- Erasure of the entry found by std::map::find: exactly the first match
is removed. -/
def eraseFirst {α : Type} (m : List (SrcKey × α)) (k : SrcKey) :
    List (SrcKey × α) :=
  match m with
  | [] => []
  | p :: r => if p.1 = k then r else p :: eraseFirst r k

/-- Embedding of Server::removeSource, src/src/server.cpp lines 177 to 192:
look the pair up, and when found return the stored Source and erase that
entry; otherwise return the null pointer, leaving the map untouched. -/
def removeSource {α : Type} (m : List (SrcKey × α)) (name : List Nat)
    (order : Int) : Option α × List (SrcKey × α) :=
  match mapGet? m (order, name) with
  | none => (none, m)
  | some s => (some s, eraseFirst m (order, name))

/-! Concrete instances used by the evaluated statements below. -/

/-- Encoded type stream of Struct A containing Struct B containing Struct C
containing one Int32 member named x; all three Structs carry empty ids and
one member each, with member names B (0x42), C (0x43) and x (0x78). -/
def c4bytes : List Nat :=
  [0x80, 0x00, 0x01, 0x01, 0x42,
   0x80, 0x00, 0x01, 0x01, 0x43,
   0x80, 0x00, 0x01, 0x01, 0x78,
   0x22]

/-- Decode of the nested-struct type stream on a fresh context. -/
def c4run : IBuf × TypeCtxt × Bool :=
  typeFWGo 60 ⟨c4bytes, true⟩ ⟨[], []⟩ (.one 0)

/-- Cache binding key 258 to a one-node Int32 subtree. -/
def c5cache : Cache := [(258, [{ code := 0x22, num_index := 1 }])]

/-- Type of an array of empty Structs. -/
def c3desc : TDesc := .tstructA (.tstruct [] [])

/-- Decode of a StructA value whose single element carries presence byte 2:
Size one, presence two, and the empty element body. -/
def c3run : IBuf × Cache × FWRes :=
  fwGo 20 ⟨[1, 2], true⟩ [] (.field c3desc (defaultStore 20 c3desc))

/-- A twelve-byte GUID sample. -/
def guidSample : List Nat := [1, 2, 3, 4, 5, 6, 7, 8, 9, 10, 11, 12]

/-- One beacon transmission from zeroed vectors with both vector bases at
address zero (the friendliest aliasing for the pointer arithmetic of the
source). -/
def c7run : Option (List Nat) × List Nat :=
  doBeacons (List.replicate 128 0) (List.replicate 16 0) 0 0 guidSample 5075

/-- The datagram handed to sendto in the beacon run. -/
def c7dg : List Nat := (c7run.1).getD []

/-- Bytes of an address-list entry that no IPv4 parse accepts. -/
def bogusBytes : List Nat := [0x62, 0x6f, 0x67, 0x75, 0x73]

/-- Environment carrying only EPICS_PVAS_INTF_ADDR_LIST set to the invalid
entry. -/
def envBad : EnvMap := { pvasIntf := some bogusBytes }

/-- A default-constructed starting configuration for the from_env runs. -/
def cfg0 : Config :=
  { interfaces := [], beaconDestinations := [], auto_beacon := true,
    tcp_port := 5075, udp_port := 5076 }

/-- A sample Source registry with the distinguished server entry at order
-1 and one user Source. -/
def regSample : List (SrcKey × Nat) :=
  [((-1, [115, 101, 114, 118, 101, 114]), 7), ((0, [97]), 1)]

/-! Theorems settling the claims. -/

/-- C1: the claim states that for every Value whose storage matches its
FieldDesc, to_wire_full followed by from_wire_full into a fresh Value of
the same type is bit-equal to the original in every storage cell.  The code
violates this: a UInt8 cell holding 200 encodes to the byte 200, but the
decoder reads the byte back through from_wire_as of int8_t and sign-extends
into the uint64 cell, producing 2^64 - 56.  (The scalar-array decode
template likewise discards its decoded array, so array cells also fail to
round-trip.)  This theorem evaluates the code at the failing input. -/
theorem C1_full_roundtrip_failure :
    twGo 5 OBuf.init (.field (.prim 0x24) (.stUInt 200)) =
      ⟨[200], true, false⟩ ∧
    (fwGo 5 ⟨[200], true⟩ [] (.field (.prim 0x24)
        (defaultStore 5 (.prim 0x24)))).2.2 =
      .rStore (.stUInt (2 ^ 64 - 56)) ∧
    (fwGo 5 ⟨[200], true⟩ [] (.field (.prim 0x24)
        (defaultStore 5 (.prim 0x24)))).1.ok = true ∧
    (2 ^ 64 - 56 : Nat) ≠ 200 :=
  ⟨by decide, rfl, by decide, by decide⟩

/-- C2: the claim states that to_wire_full on every array-of-scalar value
with Array storage emits a Size count followed by the elements and
completes without fault or assertion failure.  The Array branch of
to_wire_field matches the scalar codes Int8 through Float64 instead of the
array codes, so an Int8A value (code 0x28) falls to the default of the
switch and reaches the assertion failure plus fault, emitting nothing.
Bool arrays, whose code 0x08 is matched, do encode as claimed; the
counterexample is the Int8A evaluation. -/
theorem C2_scalar_array_encode_failure :
    twGo 5 OBuf.init (.field (.prim 0x28) (.stArrU8 [1, 2])) =
      ⟨[], false, true⟩ ∧
    twGo 5 OBuf.init (.field (.prim 0x08) (.stArrBool [true, false])) =
      ⟨[2, 1, 0], true, false⟩ :=
  ⟨by decide, by decide⟩

/-- C3 counterexample: the claim states that an element presence byte that
is neither 0 nor 1 sets the sticky fault flag.  Decoding a StructA value
whose single element carries presence byte 2 completes with the buffer
still good and the element decoded, so the claim as stated is false. -/
theorem C3_presence_two_no_fault :
    c3run.1.ok = true ∧ c3run.1.data = [] ∧
    c3run.2.2 = .rStore (.stArrVal [some (.tstruct [] [], .stNull [])]) :=
  ⟨by decide, by decide, rfl⟩

/-- C4: the claim states that the flattening step inserts, for a Struct S
at position p with a Struct child of identical code at position c, the
dotted path at relative index (c - p) plus the descendant index relative to
c.  Decoding the nested stream A(B(C(x))) succeeds, node 1 (B, code 0x80)
has the Struct child C at relative index 1 (so c = 2, p = 1) and C resolves
x at relative index 1, hence the claim requires mlookup of B at path C.x to
be (2 - 1) + 1 = 2; the decoder stores cindex + rel = 2 + 1 = 3 instead
(the source omits the subtraction of the parent index). -/
theorem C4_mlookup_flatten_wrong_index :
    c4run.1.ok = true ∧ c4run.1.data = [] ∧
    (c4run.2.1.descs.getD 1 {}).code = 0x80 ∧
    (c4run.2.1.descs.getD 2 {}).code = 0x80 ∧
    (c4run.2.1.descs.getD 1 {}).miter = [([0x43], 1)] ∧
    mapGet? (c4run.2.1.descs.getD 2 {}).mlookup [0x78] = some 1 ∧
    mapGet? (c4run.2.1.descs.getD 1 {}).mlookup [0x43, 0x2e, 0x78] = some 3 ∧
    (3 : Nat) ≠ (2 - 1) + 1 := by
  refine ⟨by decide, by decide, by decide, by decide, by decide, by decide,
    by decide, by decide⟩

/-- C7: the claim states that every beacon datagram begins with the
eight-byte header carrying CMD_BEACON and a body length of the datagram
length minus eight.  The source writes the header into the searchReply
vector and computes the packet length against the searchReply base while
sending from beaconMsg, so the sent datagram starts with the eight stale
bytes of beaconMsg (zeros here) rather than any header, and the patched
header bytes land in the searchReply vector instead. -/
theorem C7_beacon_header_misplaced :
    c7run.1 = some c7dg ∧
    c7dg.length = 47 ∧
    c7dg.take 8 = List.replicate 8 0 ∧
    c7dg.take 8 ≠ (hdrBytes cmdBeacon pvaFlagsServer (c7dg.length - 8)).take 8 ∧
    c7run.2.take 8 = hdrBytes cmdBeacon pvaFlagsServer 39 := by
  refine ⟨by decide, by decide, by decide, by decide, by decide⟩

/-- C3 amended: an element presence byte of zero marks the element absent,
and any nonzero presence byte is handled identically to the byte one (the
element is decoded; no fault arises from the byte value).  The three
conjuncts state this for the element loops of StructA, UnionA and AnyA
decode: with a good buffer, exchanging a nonzero presence byte for one
leaves the decode unchanged. -/
theorem C3_presence_nonzero_as_one (f n : Nat) (edesc : TDesc) (cache : Cache)
    (acc : List (Option (TDesc × Store))) (b : Nat) (rest : List Nat)
    (hb : b ≠ 0) :
    (fwGo (f + 1) ⟨b :: rest, true⟩ cache (.elemsStructA edesc (n + 1) acc) =
      fwGo (f + 1) ⟨1 :: rest, true⟩ cache (.elemsStructA edesc (n + 1) acc)) ∧
    (fwGo (f + 1) ⟨b :: rest, true⟩ cache (.elemsUnionA edesc (n + 1) acc) =
      fwGo (f + 1) ⟨1 :: rest, true⟩ cache (.elemsUnionA edesc (n + 1) acc)) ∧
    (fwGo (f + 1) ⟨b :: rest, true⟩ cache (.elemsAnyA (n + 1) acc) =
      fwGo (f + 1) ⟨1 :: rest, true⟩ cache (.elemsAnyA (n + 1) acc)) := by
  refine ⟨?_, ?_, ?_⟩ <;> simp [fwGo, getU8, hb]

/-- Witness for the amended presence-byte statement at presence byte two. -/
theorem C3_presence_nonzero_as_one_witness :
    (fwGo 3 ⟨[2], true⟩ [] (.elemsStructA (.tstruct [] []) 1 []) =
      fwGo 3 ⟨[1], true⟩ [] (.elemsStructA (.tstruct [] []) 1 [])) ∧
    (fwGo 3 ⟨[2], true⟩ [] (.elemsUnionA (.tstruct [] []) 1 []) =
      fwGo 3 ⟨[1], true⟩ [] (.elemsUnionA (.tstruct [] []) 1 [])) ∧
    (fwGo 3 ⟨[2], true⟩ [] (.elemsAnyA 1 []) =
      fwGo 3 ⟨[1], true⟩ [] (.elemsAnyA 1 [])) :=
  C3_presence_nonzero_as_one 2 0 (.tstruct [] []) [] [] 2 [] (by decide)

/-- C10: in the UnionA element loop with a nonzero presence byte, a null
selector (size byte 0xFF, the size_t(-1) sentinel) produces a null element
with no fault, continuing exactly like the presence-zero case (first two
conjuncts reach the same continuation); a single-byte selector that is not
the sentinel and not below the element Union's member count sets the fault
flag and returns from the whole decode with the element array left
unassigned (third conjunct). -/
theorem C10_uniona_selector (f n : Nat) (edesc : TDesc) (cache : Cache)
    (acc : List (Option (TDesc × Store))) (p s : Nat) (rest : List Nat)
    (hp : p ≠ 0) (hs : s < 254) (hinval : (tdMembers edesc).length ≤ s) :
    (fwGo (f + 1) ⟨p :: 0xff :: rest, true⟩ cache (.elemsUnionA edesc (n + 1) acc) =
      fwGo f ⟨rest, true⟩ cache (.elemsUnionA edesc n (acc ++ [none]))) ∧
    (fwGo (f + 1) ⟨0 :: rest, true⟩ cache (.elemsUnionA edesc (n + 1) acc) =
      fwGo f ⟨rest, true⟩ cache (.elemsUnionA edesc n (acc ++ [none]))) ∧
    (fwGo (f + 1) ⟨p :: s :: rest, true⟩ cache (.elemsUnionA edesc (n + 1) acc) =
      (⟨rest, false⟩, cache, .rElems acc true)) := by
  have hns : s ≠ 18446744073709551615 := by omega
  have h255 : s ≠ 255 := by omega
  have h254 : s ≠ 254 := by omega
  have hget : (tdMembers edesc)[s]? = none := by
    rw [List.getElem?_eq_none_iff]; exact hinval
  refine ⟨?_, ?_, ?_⟩
  · simp [fwGo, getU8, getSize, hp, NULLSIZE]
  · simp [fwGo, getU8]
  · simp [fwGo, getU8, getSize, hp, hns, hget, h255, h254, fault, NULLSIZE]

/-- Witness for the UnionA selector statement on an empty element Union,
presence byte two, selectors 0xFF (null) and five (invalid). -/
theorem C10_uniona_selector_witness :
    (fwGo 3 ⟨[2, 0xff], true⟩ [] (.elemsUnionA (.tunion [] []) 1 []) =
      fwGo 2 ⟨[], true⟩ [] (.elemsUnionA (.tunion [] []) 0 ([] ++ [none]))) ∧
    (fwGo 3 ⟨[0], true⟩ [] (.elemsUnionA (.tunion [] []) 1 []) =
      fwGo 2 ⟨[], true⟩ [] (.elemsUnionA (.tunion [] []) 0 ([] ++ [none]))) ∧
    (fwGo 3 ⟨[2, 5], true⟩ [] (.elemsUnionA (.tunion [] []) 1 []) =
      (⟨[], false⟩, [], .rElems [] true)) :=
  C10_uniona_selector 2 0 (.tunion [] []) [] [] 2 5 [] (by decide) (by decide)
    (by decide)

/-- C5: decoding a type byte 0xFE (Cache-Ref) followed by a 16-bit key on a
good buffer within the depth bound: a key that is unbound or bound to an
empty subtree sets the fault flag and appends nothing to the destination
vector; a key bound to a nonempty subtree appends a copy of that subtree,
leaves the buffer good and consumes exactly the three tag bytes. -/
theorem C5_cache_ref (f depth h l : Nat) (rest : List Nat)
    (descs : List FieldDesc) (cache : Cache) (e? : Option (List FieldDesc))
    (hdep : depth ≤ 20) (hlook : mapGet? cache (h * 256 + l) = e?) :
    match e? with
    | none =>
      (typeFWGo (f + 1) ⟨0xfe :: h :: l :: rest, true⟩ ⟨descs, cache⟩
        (.one depth)).1.ok = false ∧
      (typeFWGo (f + 1) ⟨0xfe :: h :: l :: rest, true⟩ ⟨descs, cache⟩
        (.one depth)).2.1.descs = descs
    | some [] =>
      (typeFWGo (f + 1) ⟨0xfe :: h :: l :: rest, true⟩ ⟨descs, cache⟩
        (.one depth)).1.ok = false ∧
      (typeFWGo (f + 1) ⟨0xfe :: h :: l :: rest, true⟩ ⟨descs, cache⟩
        (.one depth)).2.1.descs = descs
    | some (d :: ds) =>
      (typeFWGo (f + 1) ⟨0xfe :: h :: l :: rest, true⟩ ⟨descs, cache⟩
        (.one depth)).1.ok = true ∧
      (typeFWGo (f + 1) ⟨0xfe :: h :: l :: rest, true⟩ ⟨descs, cache⟩
        (.one depth)).2.1.descs = descs ++ d :: ds ∧
      (typeFWGo (f + 1) ⟨0xfe :: h :: l :: rest, true⟩ ⟨descs, cache⟩
        (.one depth)).1.data = rest := by
  have hd : ¬(¬((true : Bool) = true) ∨ depth > 20) := by simp; omega
  have hd2 : ¬(20 < depth) := by omega
  rcases e? with _ | ⟨_ | ⟨d, ds⟩⟩ <;>
    simp [typeFWGo, hd, hd2, getU8, getU16, hlook, fault]

/-- Witness for the Cache-Ref statement: key 258 is bound to a one-node
subtree and key 259 is unbound. -/
theorem C5_cache_ref_witness :
    ((typeFWGo 5 ⟨[0xfe, 1, 2], true⟩ ⟨[], c5cache⟩ (.one 0)).1.ok = true ∧
     (typeFWGo 5 ⟨[0xfe, 1, 2], true⟩ ⟨[], c5cache⟩ (.one 0)).2.1.descs =
       [] ++ [{ code := 0x22, num_index := 1 }] ∧
     (typeFWGo 5 ⟨[0xfe, 1, 2], true⟩ ⟨[], c5cache⟩ (.one 0)).1.data = []) ∧
    ((typeFWGo 5 ⟨[0xfe, 1, 3], true⟩ ⟨[], c5cache⟩ (.one 0)).1.ok = false ∧
     (typeFWGo 5 ⟨[0xfe, 1, 3], true⟩ ⟨[], c5cache⟩ (.one 0)).2.1.descs = []) :=
  ⟨C5_cache_ref 4 0 1 2 [] [] c5cache
      (some [{ code := 0x22, num_index := 1 }]) (by decide) (by decide),
   C5_cache_ref 4 0 1 3 [] [] c5cache none (by decide) (by decide)⟩

/-- The uint16_t claim counter equals the initial value plus the true count
while no wrap occurs. -/
theorem nreply16_aux (claims : List Bool) :
    ∀ a : Nat, a + claims.count true < 65536 →
      claims.foldl (fun a c => if c then (a + 1) % 65536 else a) a =
        a + claims.count true := by
  induction claims with
  | nil => intro a _; simp
  | cons c tl ih =>
    intro a ha
    cases c with
    | false =>
      simp only [List.foldl_cons]
      rw [if_neg Bool.false_ne_true]
      have ha2 : a + tl.count true < 65536 := by
        simp [List.count_cons] at ha; omega
      rw [ih a ha2]
      simp [List.count_cons]
    | true =>
      simp only [List.foldl_cons]
      rw [if_pos trivial]
      have ha2 : a + tl.count true + 1 < 65536 := by
        simp [List.count_cons] at ha; omega
      have h1 : (a + 1) % 65536 = a + 1 := Nat.mod_eq_of_lt (by omega)
      rw [h1, ih (a + 1) (by omega)]
      simp [List.count_cons]
      omega

/-- Below 65536 names the uint16_t claim counter equals the plain count. -/
theorem nreply16_eq_count (claims : List Bool) (h : claims.length < 65536) :
    nreply16 claims = claims.count true :=
  (nreply16_aux claims 0 (by
    have := List.count_le_length (a := true) (l := claims)
    omega)).trans (by omega)

/-- The id-emission loop equals one uint32 per claimed name of the zipped
name and claim lists, in order. -/
theorem emitIds_eq (names : List (Nat × List Nat)) (claims : List Bool) :
    emitIds names claims =
      ((names.zip claims).filterMap
        (fun p => if p.2 then some (u32be (p.1.1 % 2 ^ 32)) else none)).flatten := by
  induction names generalizing claims with
  | nil => cases claims <;> rfl
  | cons n ns ih =>
    cases claims with
    | nil => rfl
    | cons c cs =>
      cases c with
      | false => simpa [emitIds] using ih cs
      | true => simpa [emitIds] using ih cs

/-- Length of the emitted ids: four bytes per claimed name. -/
theorem emitIds_length (names : List (Nat × List Nat)) (claims : List Bool)
    (h : claims.length = names.length) :
    (emitIds names claims).length = 4 * claims.count true := by
  induction names generalizing claims with
  | nil =>
    cases claims with
    | nil => rfl
    | cons c cs => simp at h
  | cons n ns ih =>
    cases claims with
    | nil => simp at h
    | cons c cs =>
      simp only [List.length_cons, Nat.succ.injEq] at h
      cases c with
      | false => simpa [emitIds] using ih cs h
      | true =>
        simp only [emitIds, if_true, List.length_append, ih cs h,
          List.count_cons]
        simp [u32be]
        omega

/-- C6: with the claim flags computed (one per name) and a physically
possible name count, a Search with no claimed name and mustReply clear
produces no reply; otherwise the reply datagram is the eight-byte header
carrying a body length of 41 plus four per claimed name, followed by the
twelve GUID bytes, the searchID, the sixteen-byte wildcard address, the
TCP port, the tcp transport tag, one byte that is one exactly when some
name was claimed, the uint16 claim count, and one uint32 id per claimed
name in original name order. -/
theorem C6_search_reply (guid : List Nat) (tcp searchID : Nat) (mr : Bool)
    (names : List (Nat × List Nat)) (claims : List Bool)
    (hlen : claims.length = names.length) (hb : names.length < 65536)
    (hg : guid.length = 12) :
    ((claims.count true = 0 ∧ mr = false) →
      onSearchReply guid tcp searchID mr names claims = none) ∧
    (¬(claims.count true = 0 ∧ mr = false) →
      onSearchReply guid tcp searchID mr names claims =
        some (hdrBytes cmdSearchResponse pvaFlagsServer
            (41 + 4 * claims.count true) ++
          (guid ++ u32be (searchID % 2 ^ 32) ++ sockAddrAny16 ++
           u16be (tcp % 65536) ++ (sizeBytes tcpBytes.length ++ tcpBytes) ++
           [if 0 < claims.count true then 1 else 0] ++
           u16be (claims.count true) ++
           (((names.zip claims).filterMap
               (fun p => if p.2 then some (u32be (p.1.1 % 2 ^ 32)) else none)).flatten)))) := by
  have hcnt : nreply16 claims = claims.count true :=
    nreply16_eq_count claims (by omega)
  have hfound : (if claims.count true = 0 then (0 : Nat) else 1) =
      if 0 < claims.count true then 1 else 0 := by
    rcases Nat.eq_zero_or_pos (claims.count true) with h | h
    · simp [h]
    · rw [if_neg (by omega), if_pos h]
  constructor
  · rintro ⟨h0, hm⟩
    simp only [onSearchReply, hcnt]
    rw [if_pos ⟨h0, hm⟩]
  · intro hn
    simp only [onSearchReply, hcnt]
    rw [if_neg hn]
    rw [← emitIds_eq, hfound]
    have hlenB : (guid ++ u32be (searchID % 2 ^ 32) ++ sockAddrAny16 ++
        u16be (tcp % 65536) ++ (sizeBytes tcpBytes.length ++ tcpBytes) ++
        [if 0 < claims.count true then (1 : Nat) else 0] ++
        u16be (claims.count true) ++ emitIds names claims).length
        = 41 + 4 * claims.count true := by
      simp [hg, emitIds_length names claims hlen, u32be, u16be,
            sockAddrAny16, sizeBytes, tcpBytes, NULLSIZE]
      omega
    rw [hlenB]
    simp

/-- Witness for the search-reply statement: two names, the second claimed,
mustReply clear; the reply carries nreply one and the single id two. -/
theorem C6_search_reply_witness :
    onSearchReply guidSample 5075 77 false [(1, [0x78]), (2, [0x79])]
        [false, true] =
      some [202, 2, 64, 4, 0, 0, 0, 45, 1, 2, 3, 4, 5, 6, 7, 8, 9, 10, 11, 12,
            0, 0, 0, 77, 0, 0, 0, 0, 0, 0, 0, 0, 0, 0, 255, 255, 0, 0, 0, 0,
            19, 211, 3, 116, 99, 112, 1, 0, 1, 0, 0, 0, 2] :=
  (C6_search_reply guidSample 5075 77 false [(1, [0x78]), (2, [0x79])]
    [false, true] (by decide) (by decide) (by decide)).2 (by decide)

/-- C8: the split loop of the interface list never terminates when a token
fails the address parse (the source continues without advancing the input),
and Config::from_env therefore never returns on an environment whose
EPICS_PVAS_INTF_ADDR_LIST holds an invalid entry, contradicting the claim
that parsing skips the entry and continues. -/
theorem C8_from_env_nonterminating :
    splitDiverges (fun _ => false) (fun s => s) bogusBytes [] ∧
    fromEnvDiverges cfg0 envBad (fun _ => false) (fun s => s) := by
  have hs : splitDiverges (fun _ => false) (fun s => s) bogusBytes [] := by
    intro fuel
    induction fuel with
    | zero => rfl
    | succ f ih =>
      have ht : tokenSplit bogusBytes = some (bogusBytes, []) := rfl
      simp only [splitRun, ht]
      rw [if_neg (by decide)]
      simpa using ih
  refine ⟨hs, ?_⟩
  intro fuel
  simp [fromEnv, envBad, cfg0, hs fuel]

/-- Keys absent from an association list are untouched by the filter that
drops one key. -/
theorem lookup_none_filter {α : Type} (m : List (SrcKey × α)) (k : SrcKey)
    (hk : mapGet? m k = none) : m.filter (fun p => p.1 != k) = m := by
  induction m with
  | nil => rfl
  | cons p r ih =>
    rw [mapGet?] at hk
    by_cases hp : p.1 = k
    · rw [if_pos hp] at hk
      exact Option.noConfusion hk
    · rw [if_neg hp] at hk
      rw [List.filter_cons, if_pos (by simpa using hp)]
      rw [ih hk]

/-- Under key nodup, the head key does not occur in the tail. -/
theorem nodup_head_lookup_none {α : Type} (p : SrcKey × α)
    (r : List (SrcKey × α)) (hnd : ((p :: r).map Prod.fst).Nodup) :
    mapGet? r p.1 = none := by
  simp only [List.map_cons, List.nodup_cons] at hnd
  induction r with
  | nil => rfl
  | cons q t ih =>
    rw [mapGet?]
    simp only [List.map_cons, List.mem_cons, List.nodup_cons] at hnd
    rw [if_neg (fun hq => hnd.1 (Or.inl hq.symm))]
    exact ih ⟨fun hm => hnd.1 (Or.inr hm), hnd.2.2⟩

/-- With nodup keys, erasing the found entry removes exactly the entries
carrying that key, in place. -/
theorem erase_eq_filter {α : Type} (m : List (SrcKey × α)) (k : SrcKey)
    (hnd : (m.map Prod.fst).Nodup) :
    eraseFirst m k = m.filter (fun p => p.1 != k) := by
  induction m with
  | nil => rfl
  | cons p r ih =>
    by_cases hp : p.1 = k
    · rw [eraseFirst, if_pos hp]
      rw [List.filter_cons, if_neg (by simp [hp])]
      have hr : mapGet? r k = none := hp ▸ nodup_head_lookup_none p r hnd
      exact (lookup_none_filter r k hr).symm
    · rw [eraseFirst, if_neg hp]
      rw [List.filter_cons, if_pos (by simpa using hp)]
      simp only [List.map_cons, List.nodup_cons] at hnd
      rw [ih hnd.2]

/-- C9: on a registry with unique keys (the std::map invariant), removing
an absent pair returns the null pointer and leaves the registry unchanged,
while removing a present pair returns the registered Source and the
registry afterwards holds exactly the entries whose key differs, in the
original order. -/
theorem C9_remove_source {α : Type} (m : List (SrcKey × α)) (name : List Nat)
    (order : Int) (hnd : (m.map Prod.fst).Nodup) :
    match mapGet? m (order, name) with
    | none => removeSource m name order = (none, m)
    | some s => (removeSource m name order).1 = some s ∧
        (removeSource m name order).2 =
          m.filter (fun p => p.1 != (order, name)) := by
  cases h : mapGet? m (order, name) with
  | none => simp [removeSource, h]
  | some s =>
    refine ⟨by simp [removeSource, h], ?_⟩
    simp only [removeSource, h]
    exact erase_eq_filter m (order, name) hnd

/-- Witness for removeSource: the sample registry with a present pair and
an absent pair. -/
theorem C9_remove_source_witness :
    ((removeSource regSample [97] 0).1 = some 1 ∧
     (removeSource regSample [97] 0).2 =
       regSample.filter (fun p => p.1 != ((0 : Int), [97]))) ∧
    removeSource regSample [98] 5 = (none, regSample) :=
  ⟨C9_remove_source regSample [97] 0 (by decide),
   C9_remove_source regSample [98] 5 (by decide)⟩

end PvxsProof
